import Mathlib

/-!
Verification of the grade-computation core of the grade-tracker application
(src/app.tsx).  Numbers are modelled as rationals; JavaScript falsy defaults
(`x || d`), nullish coalescing (`x ?? d`), `Number.prototype.toFixed(2)` and
`parseFloat` are modelled explicitly.
-/

namespace GradeTracker

/-- From src/app.tsx lines 26-30: an assignment; `grade = none` models the
JavaScript `null` ("not yet graded"). -/
structure Assignment where
  name : String
  grade : Option Rat
  weight : Rat

/-- The `entryType` field of a course entry: "final" or "scale". -/
inductive EntryType where
  | final : EntryType
  | scale : EntryType
deriving DecidableEq

/-- From src/app.tsx lines 32-42: a course entry.  Optional fields are
modelled with `Option`. -/
structure CourseEntry where
  id : Option String
  course : String
  year : String
  semester : String
  goalGrade : String
  entryType : EntryType
  finalGrade : Option String
  assignments : Option (List Assignment)
  credits : Option Rat

/-- From src/app.tsx lines 45-59: the `letterToNumeric` lookup object.
A JavaScript property access on a missing key yields `undefined`, modelled
as `none`; the call sites apply `?? 0`, modelled as `Option.getD 0`. -/
def letterToNumeric (letter : String) : Option Rat :=
  if letter = "A+" then some 10
  else if letter = "A" then some 9
  else if letter = "A-" then some 8
  else if letter = "B+" then some 7
  else if letter = "B" then some 6
  else if letter = "C+" then some 5
  else if letter = "C" then some 4
  else if letter = "D+" then some 3
  else if letter = "D" then some 2
  else if letter = "E" then some 1
  else if letter = "F" then some 0
  else if letter = "ABS" then some 0
  else if letter = "EIN" then some 0
  else none

/-- The keys of the `letterToNumeric` object, in source order. -/
def letterKeys : List String :=
  ["A+", "A", "A-", "B+", "B", "C+", "C", "D+", "D", "E", "F", "ABS", "EIN"]

/-- From src/app.tsx lines 61-73: `percentageToLetter`. -/
def percentageToLetter (percentage : Rat) : String :=
  if percentage ≥ 90 then "A+"
  else if percentage ≥ 85 then "A"
  else if percentage ≥ 80 then "A-"
  else if percentage ≥ 75 then "B+"
  else if percentage ≥ 70 then "B"
  else if percentage ≥ 65 then "C+"
  else if percentage ≥ 60 then "C"
  else if percentage ≥ 55 then "D+"
  else if percentage ≥ 50 then "D"
  else if percentage ≥ 40 then "E"
  else "F"

/-- JavaScript `s || d` for an optional string `s`: the empty string is
falsy, so both an absent and an empty string fall back to the default. -/
def orDefaultStr (s : Option String) (d : String) : String :=
  match s with
  | none => d
  | some v => if v = "" then d else v

/-- JavaScript `entry.credits || 3` (src/app.tsx line 783): an absent
credits field and the falsy number 0 both fall back to 3. -/
def creditsOf (entry : CourseEntry) : Rat :=
  match entry.credits with
  | none => 3
  | some c => if c = 0 then 3 else c

/-- Prints a number of cents with two fractional digits: `750 ↦ "7.50"`. -/
def fmtCents (n : Nat) : String :=
  Nat.repr (n / 100) ++ "." ++
    (if n % 100 < 10 then "0" ++ Nat.repr (n % 100) else Nat.repr (n % 100))

/-- `Number.prototype.toFixed(2)` on a nonnegative rational: the integer
`n` closest to `100 * x` (ties to the larger), printed with two fractional
digits. -/
def formatFixed2Nonneg (x : Rat) : String :=
  fmtCents (Int.floor (x * 100 + 1 / 2)).toNat

/-- `Number.prototype.toFixed(2)`: a negative argument is printed as the
sign followed by the rendering of its negation. -/
def formatFixed2 (x : Rat) : String :=
  if x < 0 then "-" ++ formatFixed2Nonneg (-x) else formatFixed2Nonneg x

/-- From src/app.tsx lines 790-804: module-level `computeEntryNumeric`.
`entry.finalGrade || "F"` is `orDefaultStr`, `a.grade ?? 0` is
`Option.getD`, `entry.assignments || []` is `Option.getD []`, and the
`?? 0` after the table lookup is `Option.getD 0`. -/
def computeEntryNumeric (entry : CourseEntry) : Rat :=
  if entry.entryType = EntryType.final then
    (letterToNumeric (orDefaultStr entry.finalGrade "F")).getD 0
  else
    let assignments := entry.assignments.getD []
    let totalWeight := assignments.foldl (fun sum a => sum + a.weight) (0 : Rat)
    let weightedSum := assignments.foldl (fun sum a => sum + (a.grade.getD 0) * a.weight) (0 : Rat)
    let avgPercentage := if totalWeight > 0 then weightedSum / totalWeight else 0
    let computedLetter := percentageToLetter avgPercentage
    (letterToNumeric computedLetter).getD 0

/-- From src/app.tsx lines 778-788: module-level `computeAverageCGPA`.
The two mutable accumulators of the `forEach` loop are modelled as one
left fold over a pair. -/
def computeAverageCGPA (entries : List CourseEntry) : String :=
  if entries.length = 0 then "N/A"
  else
    let acc := entries.foldl
      (fun (acc : Rat × Rat) entry =>
        (acc.1 + computeEntryNumeric entry * creditsOf entry, acc.2 + creditsOf entry))
      (0, 0)
    formatFixed2 (acc.1 / acc.2)

namespace App

/-- From src/app.tsx lines 165-179: the copy of `computeEntryNumeric`
defined inside the `App` component. -/
def computeEntryNumeric (entry : CourseEntry) : Rat :=
  if entry.entryType = EntryType.final then
    (letterToNumeric (orDefaultStr entry.finalGrade "F")).getD 0
  else
    let assignments := entry.assignments.getD []
    let totalWeight := assignments.foldl (fun sum a => sum + a.weight) (0 : Rat)
    let weightedSum := assignments.foldl (fun sum a => sum + (a.grade.getD 0) * a.weight) (0 : Rat)
    let avgPercentage := if totalWeight > 0 then weightedSum / totalWeight else 0
    let computedLetter := percentageToLetter avgPercentage
    (letterToNumeric computedLetter).getD 0

/-- From src/app.tsx lines 181-191: the copy of `computeAverageCGPA`
defined inside the `App` component; it calls the `App`-local
`computeEntryNumeric`. -/
def computeAverageCGPA (entries : List CourseEntry) : String :=
  if entries.length = 0 then "N/A"
  else
    let acc := entries.foldl
      (fun (acc : Rat × Rat) entry =>
        (acc.1 + computeEntryNumeric entry * creditsOf entry, acc.2 + creditsOf entry))
      (0, 0)
    formatFixed2 (acc.1 / acc.2)

end App

/-- The grouping key `` `${entry.year} ${entry.semester}` `` used by the
chart construction (src/app.tsx lines 340 and 735). -/
def groupKey (entry : CourseEntry) : String :=
  entry.year ++ " " ++ entry.semester

/-- One step of building `semesterGroups`: a JavaScript `Record` with
string (non-index) keys preserves insertion order, modelled as an
association list.  An existing group gets the entry appended; a new key is
appended at the end with a singleton group. -/
def insertGrouped (acc : List (String × List CourseEntry)) (entry : CourseEntry) :
    List (String × List CourseEntry) :=
  if acc.any (fun p => p.1 = groupKey entry) then
    acc.map (fun p => if p.1 = groupKey entry then (p.1, p.2 ++ [entry]) else p)
  else
    acc ++ [(groupKey entry, [entry])]

/-- From src/app.tsx lines 338-345 (and identically 733-740): the
`semesterGroups` record built by a `forEach` over the collection. -/
def semesterGroups (progressData : List CourseEntry) : List (String × List CourseEntry) :=
  progressData.foldl insertGrouped []

/-- A model of JavaScript `parseFloat` restricted to decimal literals
without an exponent part: leading digits, then optionally a dot and more
digits; trailing garbage is ignored; `none` models `NaN`. -/
def takeDigits : List Char → List Nat × List Char
  | [] => ([], [])
  | c :: cs =>
    if c.isDigit then
      let r := takeDigits cs
      ((c.toNat - 48) :: r.1, r.2)
    else
      ([], c :: cs)

/-- Reads a digit list as a natural number, most significant digit first. -/
def digitsToNat (ds : List Nat) : Nat :=
  ds.foldl (fun acc d => acc * 10 + d) 0

/-- Splits a decimal numeral into (negative?, integer part, fraction
digits value, fraction length); `none` when no digit is present. -/
def parseDecimal (s : String) : Option (Bool × Nat × Nat × Nat) :=
  let cs := s.toList
  let signAndRest : Bool × List Char :=
    match cs with
    | '-' :: rest => (true, rest)
    | '+' :: rest => (false, rest)
    | _ => (false, cs)
  let intPart := takeDigits signAndRest.2
  let fracPart : List Nat :=
    match intPart.2 with
    | '.' :: rest => (takeDigits rest).1
    | _ => []
  if intPart.1 = [] ∧ fracPart = [] then none
  else some (signAndRest.1, digitsToNat intPart.1, digitsToNat fracPart, fracPart.length)

/-- JavaScript `parseFloat` on the strings this application produces
("N/A", "0", or a decimal numeral): `none` models `NaN`. -/
def parseFloatQ (s : String) : Option Rat :=
  match parseDecimal s with
  | none => none
  | some (neg, ip, fp, fl) =>
    some ((if neg then -1 else 1) * ((ip : Rat) + (fp : Rat) / (10 ^ fl)))

/-- From src/app.tsx lines 346-353 (and identically 741-748): the chart
labels are the group keys in record order followed by "Overall". -/
def chartLabels (progressData : List CourseEntry) : List String :=
  (semesterGroups progressData).map (fun p => p.1) ++ ["Overall"]

/-- From src/app.tsx lines 346-354 (and identically 741-749): the chart
values are `parseFloat` of each group's CGPA in record order, followed by
`parseFloat(totalCgpa === "N/A" ? "0" : totalCgpa)`. -/
def chartValues (progressData : List CourseEntry) : List (Option Rat) :=
  (semesterGroups progressData).map (fun p => parseFloatQ (computeAverageCGPA p.2)) ++
    [parseFloatQ
      (if computeAverageCGPA progressData = "N/A" then "0"
       else computeAverageCGPA progressData)]

/-! Specification-side definitions, written from the spec's Σ-formulas,
for comparison with the fold-based code. -/

/-- Spec §4.2: `totalWeight = Σ weight`. -/
def specTotalWeight (as : List Assignment) : Rat :=
  (as.map (fun a => a.weight)).sum

/-- Spec §4.2: `weightedSum = Σ (grade_or_zero × weight)`, an absent grade
contributing 0. -/
def specWeightedSum (as : List Assignment) : Rat :=
  (as.map (fun a => (a.grade.getD 0) * a.weight)).sum

/-- Spec §4.2: `avgPercentage = weightedSum / totalWeight` when
`totalWeight > 0`, else 0. -/
def specAvgPercentage (as : List Assignment) : Rat :=
  if specTotalWeight as > 0 then specWeightedSum as / specTotalWeight as else 0

/-- Spec §6: the group keys in the order each one is first encountered. -/
def firstEncounterKeys (progressData : List CourseEntry) : List String :=
  progressData.foldl (fun ks e => if groupKey e ∈ ks then ks else ks ++ [groupKey e]) []

/-- The entries of the collection carrying a given group key, in
collection order. -/
def entriesWithKey (progressData : List CourseEntry) (k : String) : List CourseEntry :=
  progressData.filter (fun e => groupKey e = k)

/-- The average percentage computed in the scale branch of
`computeEntryNumeric`, as the code computes it (left folds). -/
def scaleAvg (entry : CourseEntry) : Rat :=
  let assignments := entry.assignments.getD []
  let totalWeight := assignments.foldl (fun sum a => sum + a.weight) (0 : Rat)
  let weightedSum := assignments.foldl (fun sum a => sum + (a.grade.getD 0) * a.weight) (0 : Rat)
  if totalWeight > 0 then weightedSum / totalWeight else 0

/-- The spec's worked example of a scale entry: one assignment of weight 50
graded 80, one assignment of weight 50 not yet graded. -/
def exScaleEntry : CourseEntry :=
  ⟨none, "CSC1010", "2024", "Fall", "A", EntryType.scale, none,
    some [⟨"A1", some 80, 50⟩, ⟨"A2", none, 50⟩], some 3⟩

/-- A final-grade entry with letter "A" (numeric 9) and 3 credits. -/
def exFinalA : CourseEntry :=
  ⟨none, "CSC1010", "2024", "Fall", "A", EntryType.final, some "A", none, some 3⟩

/-- A final-grade entry with letter "B" (numeric 6) and 3 credits. -/
def exFinalB : CourseEntry :=
  ⟨none, "CSC1020", "2024", "Fall", "A", EntryType.final, some "B", none, some 3⟩


/-! Helper lemmas shared by the claim theorems. -/

theorem foldl_add_map {α : Type} (f : α → Rat) (l : List α) (init : Rat) :
    l.foldl (fun s a => s + f a) init = init + (l.map f).sum := by
  induction l generalizing init with
  | nil => simp
  | cons x xs ih => simp only [List.foldl_cons, List.map_cons, List.sum_cons, ih]; ring

theorem foldl_pair_sum {α : Type} (f g : α → Rat) (l : List α) (a b : Rat) :
    l.foldl (fun acc e => (acc.1 + f e, acc.2 + g e)) (a, b)
      = (a + (l.map f).sum, b + (l.map g).sum) := by
  induction l generalizing a b with
  | nil => simp
  | cons x xs ih =>
    simp only [List.foldl_cons, List.map_cons, List.sum_cons, ih, Prod.mk.injEq]
    exact ⟨by ring, by ring⟩

theorem percentageToLetter_bands (p : Rat) :
    (90 ≤ p → percentageToLetter p = "A+") ∧
    (85 ≤ p → p < 90 → percentageToLetter p = "A") ∧
    (80 ≤ p → p < 85 → percentageToLetter p = "A-") ∧
    (75 ≤ p → p < 80 → percentageToLetter p = "B+") ∧
    (70 ≤ p → p < 75 → percentageToLetter p = "B") ∧
    (65 ≤ p → p < 70 → percentageToLetter p = "C+") ∧
    (60 ≤ p → p < 65 → percentageToLetter p = "C") ∧
    (55 ≤ p → p < 60 → percentageToLetter p = "D+") ∧
    (50 ≤ p → p < 55 → percentageToLetter p = "D") ∧
    (40 ≤ p → p < 50 → percentageToLetter p = "E") ∧
    (p < 40 → percentageToLetter p = "F") := by
  unfold percentageToLetter
  by_cases h1 : p ≥ 90
  · rw [if_pos h1]
    refine ⟨?_, ?_, ?_, ?_, ?_, ?_, ?_, ?_, ?_, ?_, ?_⟩ <;> intros <;>
      first | rfl | (exfalso; linarith)
  rw [if_neg h1]
  by_cases h2 : p ≥ 85
  · rw [if_pos h2]
    refine ⟨?_, ?_, ?_, ?_, ?_, ?_, ?_, ?_, ?_, ?_, ?_⟩ <;> intros <;>
      first | rfl | (exfalso; linarith)
  rw [if_neg h2]
  by_cases h3 : p ≥ 80
  · rw [if_pos h3]
    refine ⟨?_, ?_, ?_, ?_, ?_, ?_, ?_, ?_, ?_, ?_, ?_⟩ <;> intros <;>
      first | rfl | (exfalso; linarith)
  rw [if_neg h3]
  by_cases h4 : p ≥ 75
  · rw [if_pos h4]
    refine ⟨?_, ?_, ?_, ?_, ?_, ?_, ?_, ?_, ?_, ?_, ?_⟩ <;> intros <;>
      first | rfl | (exfalso; linarith)
  rw [if_neg h4]
  by_cases h5 : p ≥ 70
  · rw [if_pos h5]
    refine ⟨?_, ?_, ?_, ?_, ?_, ?_, ?_, ?_, ?_, ?_, ?_⟩ <;> intros <;>
      first | rfl | (exfalso; linarith)
  rw [if_neg h5]
  by_cases h6 : p ≥ 65
  · rw [if_pos h6]
    refine ⟨?_, ?_, ?_, ?_, ?_, ?_, ?_, ?_, ?_, ?_, ?_⟩ <;> intros <;>
      first | rfl | (exfalso; linarith)
  rw [if_neg h6]
  by_cases h7 : p ≥ 60
  · rw [if_pos h7]
    refine ⟨?_, ?_, ?_, ?_, ?_, ?_, ?_, ?_, ?_, ?_, ?_⟩ <;> intros <;>
      first | rfl | (exfalso; linarith)
  rw [if_neg h7]
  by_cases h8 : p ≥ 55
  · rw [if_pos h8]
    refine ⟨?_, ?_, ?_, ?_, ?_, ?_, ?_, ?_, ?_, ?_, ?_⟩ <;> intros <;>
      first | rfl | (exfalso; linarith)
  rw [if_neg h8]
  by_cases h9 : p ≥ 50
  · rw [if_pos h9]
    refine ⟨?_, ?_, ?_, ?_, ?_, ?_, ?_, ?_, ?_, ?_, ?_⟩ <;> intros <;>
      first | rfl | (exfalso; linarith)
  rw [if_neg h9]
  by_cases h10 : p ≥ 40
  · rw [if_pos h10]
    refine ⟨?_, ?_, ?_, ?_, ?_, ?_, ?_, ?_, ?_, ?_, ?_⟩ <;> intros <;>
      first | rfl | (exfalso; linarith)
  rw [if_neg h10]
  refine ⟨?_, ?_, ?_, ?_, ?_, ?_, ?_, ?_, ?_, ?_, ?_⟩ <;> intros <;>
    first | rfl | (exfalso; linarith)

theorem letterToNumeric_eq_none (s : String) (hs : s ∉ letterKeys) :
    letterToNumeric s = none := by
  simp only [letterKeys, List.mem_cons, List.not_mem_nil, or_false, not_or] at hs
  obtain ⟨h1, h2, h3, h4, h5, h6, h7, h8, h9, h10, h11, h12, h13⟩ := hs
  simp only [letterToNumeric, if_neg h1, if_neg h2, if_neg h3, if_neg h4, if_neg h5,
    if_neg h6, if_neg h7, if_neg h8, if_neg h9, if_neg h10, if_neg h11, if_neg h12,
    if_neg h13]

theorem letterToNumeric_isSome_of_mem (s : String) (h : s ∈ letterKeys) :
    (letterToNumeric s).isSome = true := by
  fin_cases h <;> rfl

theorem letterToNumeric_getD_mem (s : String) :
    (letterToNumeric s).getD 0 ∈ ([0, 1, 2, 3, 4, 5, 6, 7, 8, 9, 10] : List Rat) := by
  by_cases h : s ∈ letterKeys
  · fin_cases h <;> decide
  · rw [letterToNumeric_eq_none s h]
    norm_num

theorem percentageToLetter_mem_keys (p : Rat) : percentageToLetter p ∈ letterKeys := by
  have hb := percentageToLetter_bands p
  rcases le_or_lt 90 p with h1 | h1
  · rw [hb.1 h1]; decide
  rcases le_or_lt 85 p with h2 | h2
  · rw [hb.2.1 h2 h1]; decide
  rcases le_or_lt 80 p with h3 | h3
  · rw [hb.2.2.1 h3 h2]; decide
  rcases le_or_lt 75 p with h4 | h4
  · rw [hb.2.2.2.1 h4 h3]; decide
  rcases le_or_lt 70 p with h5 | h5
  · rw [hb.2.2.2.2.1 h5 h4]; decide
  rcases le_or_lt 65 p with h6 | h6
  · rw [hb.2.2.2.2.2.1 h6 h5]; decide
  rcases le_or_lt 60 p with h7 | h7
  · rw [hb.2.2.2.2.2.2.1 h7 h6]; decide
  rcases le_or_lt 55 p with h8 | h8
  · rw [hb.2.2.2.2.2.2.2.1 h8 h7]; decide
  rcases le_or_lt 50 p with h9 | h9
  · rw [hb.2.2.2.2.2.2.2.2.1 h9 h8]; decide
  rcases le_or_lt 40 p with h10 | h10
  · rw [hb.2.2.2.2.2.2.2.2.2.1 h10 h9]; decide
  rw [hb.2.2.2.2.2.2.2.2.2.2 h10]; decide

theorem score_bands (p : Rat) :
    (90 ≤ p → (letterToNumeric (percentageToLetter p)).getD 0 = 10) ∧
    (85 ≤ p → p < 90 → (letterToNumeric (percentageToLetter p)).getD 0 = 9) ∧
    (80 ≤ p → p < 85 → (letterToNumeric (percentageToLetter p)).getD 0 = 8) ∧
    (75 ≤ p → p < 80 → (letterToNumeric (percentageToLetter p)).getD 0 = 7) ∧
    (70 ≤ p → p < 75 → (letterToNumeric (percentageToLetter p)).getD 0 = 6) ∧
    (65 ≤ p → p < 70 → (letterToNumeric (percentageToLetter p)).getD 0 = 5) ∧
    (60 ≤ p → p < 65 → (letterToNumeric (percentageToLetter p)).getD 0 = 4) ∧
    (55 ≤ p → p < 60 → (letterToNumeric (percentageToLetter p)).getD 0 = 3) ∧
    (50 ≤ p → p < 55 → (letterToNumeric (percentageToLetter p)).getD 0 = 2) ∧
    (40 ≤ p → p < 50 → (letterToNumeric (percentageToLetter p)).getD 0 = 1) ∧
    (p < 40 → (letterToNumeric (percentageToLetter p)).getD 0 = 0) := by
  have hb := percentageToLetter_bands p
  exact ⟨fun ha => by rw [hb.1 ha]; rfl,
    fun ha hc => by rw [hb.2.1 ha hc]; rfl,
    fun ha hc => by rw [hb.2.2.1 ha hc]; rfl,
    fun ha hc => by rw [hb.2.2.2.1 ha hc]; rfl,
    fun ha hc => by rw [hb.2.2.2.2.1 ha hc]; rfl,
    fun ha hc => by rw [hb.2.2.2.2.2.1 ha hc]; rfl,
    fun ha hc => by rw [hb.2.2.2.2.2.2.1 ha hc]; rfl,
    fun ha hc => by rw [hb.2.2.2.2.2.2.2.1 ha hc]; rfl,
    fun ha hc => by rw [hb.2.2.2.2.2.2.2.2.1 ha hc]; rfl,
    fun ha hc => by rw [hb.2.2.2.2.2.2.2.2.2.1 ha hc]; rfl,
    fun hc => by rw [hb.2.2.2.2.2.2.2.2.2.2 hc]; rfl⟩

theorem score_le (p : Rat) :
    (letterToNumeric (percentageToLetter p)).getD 0 ≤ 10 ∧
    (p < 90 → (letterToNumeric (percentageToLetter p)).getD 0 ≤ 9) ∧
    (p < 85 → (letterToNumeric (percentageToLetter p)).getD 0 ≤ 8) ∧
    (p < 80 → (letterToNumeric (percentageToLetter p)).getD 0 ≤ 7) ∧
    (p < 75 → (letterToNumeric (percentageToLetter p)).getD 0 ≤ 6) ∧
    (p < 70 → (letterToNumeric (percentageToLetter p)).getD 0 ≤ 5) ∧
    (p < 65 → (letterToNumeric (percentageToLetter p)).getD 0 ≤ 4) ∧
    (p < 60 → (letterToNumeric (percentageToLetter p)).getD 0 ≤ 3) ∧
    (p < 55 → (letterToNumeric (percentageToLetter p)).getD 0 ≤ 2) ∧
    (p < 50 → (letterToNumeric (percentageToLetter p)).getD 0 ≤ 1) ∧
    (p < 40 → (letterToNumeric (percentageToLetter p)).getD 0 ≤ 0) := by
  have hb := score_bands p
  rcases le_or_lt 90 p with h1 | h1
  · rw [hb.1 h1]
    refine ⟨by norm_num, ?_, ?_, ?_, ?_, ?_, ?_, ?_, ?_, ?_, ?_⟩ <;> intro hlt <;> linarith
  rcases le_or_lt 85 p with h2 | h2
  · rw [hb.2.1 h2 h1]
    refine ⟨by norm_num, ?_, ?_, ?_, ?_, ?_, ?_, ?_, ?_, ?_, ?_⟩ <;> intro hlt <;> linarith
  rcases le_or_lt 80 p with h3 | h3
  · rw [hb.2.2.1 h3 h2]
    refine ⟨by norm_num, ?_, ?_, ?_, ?_, ?_, ?_, ?_, ?_, ?_, ?_⟩ <;> intro hlt <;> linarith
  rcases le_or_lt 75 p with h4 | h4
  · rw [hb.2.2.2.1 h4 h3]
    refine ⟨by norm_num, ?_, ?_, ?_, ?_, ?_, ?_, ?_, ?_, ?_, ?_⟩ <;> intro hlt <;> linarith
  rcases le_or_lt 70 p with h5 | h5
  · rw [hb.2.2.2.2.1 h5 h4]
    refine ⟨by norm_num, ?_, ?_, ?_, ?_, ?_, ?_, ?_, ?_, ?_, ?_⟩ <;> intro hlt <;> linarith
  rcases le_or_lt 65 p with h6 | h6
  · rw [hb.2.2.2.2.2.1 h6 h5]
    refine ⟨by norm_num, ?_, ?_, ?_, ?_, ?_, ?_, ?_, ?_, ?_, ?_⟩ <;> intro hlt <;> linarith
  rcases le_or_lt 60 p with h7 | h7
  · rw [hb.2.2.2.2.2.2.1 h7 h6]
    refine ⟨by norm_num, ?_, ?_, ?_, ?_, ?_, ?_, ?_, ?_, ?_, ?_⟩ <;> intro hlt <;> linarith
  rcases le_or_lt 55 p with h8 | h8
  · rw [hb.2.2.2.2.2.2.2.1 h8 h7]
    refine ⟨by norm_num, ?_, ?_, ?_, ?_, ?_, ?_, ?_, ?_, ?_, ?_⟩ <;> intro hlt <;> linarith
  rcases le_or_lt 50 p with h9 | h9
  · rw [hb.2.2.2.2.2.2.2.2.1 h9 h8]
    refine ⟨by norm_num, ?_, ?_, ?_, ?_, ?_, ?_, ?_, ?_, ?_, ?_⟩ <;> intro hlt <;> linarith
  rcases le_or_lt 40 p with h10 | h10
  · rw [hb.2.2.2.2.2.2.2.2.2.1 h10 h9]
    refine ⟨by norm_num, ?_, ?_, ?_, ?_, ?_, ?_, ?_, ?_, ?_, ?_⟩ <;> intro hlt <;> linarith
  rw [hb.2.2.2.2.2.2.2.2.2.2 h10]
  refine ⟨by norm_num, ?_, ?_, ?_, ?_, ?_, ?_, ?_, ?_, ?_, ?_⟩ <;> intro hlt <;> linarith

theorem formatFixed2_half15 : formatFixed2 (15 / 2) = "7.50" := by
  have h : Int.floor ((15 / 2 : Rat) * 100 + 1 / 2) = 750 := by norm_num
  norm_num [formatFixed2, formatFixed2Nonneg, h]
  decide

/-- C1: for every scale entry, `computeEntryNumeric` computes the total
weight as the sum of all assignment weights and the weighted sum as the sum
of grade times weight, an absent grade contributing 0 to the sum while its
weight still counts; the average is their quotient when the total weight is
positive and 0 otherwise, and the result is
`letterToNumeric (percentageToLetter avgPercentage)`.  The spec's worked
example — `[{weight 50, grade 80}, {weight 50, grade null}]` — yields 1. -/
theorem computeEntryNumeric_scale_spec :
    (∀ entry : CourseEntry, entry.entryType = EntryType.scale →
      computeEntryNumeric entry =
        (letterToNumeric
          (percentageToLetter (specAvgPercentage (entry.assignments.getD [])))).getD 0) ∧
    computeEntryNumeric exScaleEntry = 1 := by
  constructor
  · intro entry h
    unfold computeEntryNumeric
    rw [if_neg (by rw [h]; intro hc; exact EntryType.noConfusion hc)]
    simp only [specAvgPercentage, specTotalWeight, specWeightedSum, foldl_add_map, zero_add]
  · norm_num [computeEntryNumeric, exScaleEntry, percentageToLetter, letterToNumeric]
    decide

/-- Witness for C1: the universally quantified part applied to the concrete
scale entry of the spec's example. -/
theorem computeEntryNumeric_scale_spec_witness :
    computeEntryNumeric exScaleEntry =
      (letterToNumeric
        (percentageToLetter (specAvgPercentage (exScaleEntry.assignments.getD [])))).getD 0 :=
  computeEntryNumeric_scale_spec.1 exScaleEntry rfl

/-- C3: `percentageToLetter` implements the inclusive-lower-bound threshold
ladder evaluated highest-to-lowest (`≥90 A+, ≥85 A, ≥80 A-, ≥75 B+, ≥70 B,
≥65 C+, ≥60 C, ≥55 D+, ≥50 D, ≥40 E, else F`); it is total on the
rationals: every negative percentage maps to "F" and every value above 100
maps to "A+", with the spec's boundary cases 90 ↦ "A+", 89.999 ↦ "A",
50 ↦ "D", 39.999 ↦ "F", -5 ↦ "F", 150 ↦ "A+". -/
theorem percentageToLetter_ladder :
    (∀ p : Rat,
      (90 ≤ p → percentageToLetter p = "A+") ∧
      (85 ≤ p → p < 90 → percentageToLetter p = "A") ∧
      (80 ≤ p → p < 85 → percentageToLetter p = "A-") ∧
      (75 ≤ p → p < 80 → percentageToLetter p = "B+") ∧
      (70 ≤ p → p < 75 → percentageToLetter p = "B") ∧
      (65 ≤ p → p < 70 → percentageToLetter p = "C+") ∧
      (60 ≤ p → p < 65 → percentageToLetter p = "C") ∧
      (55 ≤ p → p < 60 → percentageToLetter p = "D+") ∧
      (50 ≤ p → p < 55 → percentageToLetter p = "D") ∧
      (40 ≤ p → p < 50 → percentageToLetter p = "E") ∧
      (p < 40 → percentageToLetter p = "F")) ∧
    (∀ p : Rat, p < 0 → percentageToLetter p = "F") ∧
    (∀ p : Rat, 100 < p → percentageToLetter p = "A+") ∧
    percentageToLetter 90 = "A+" ∧ percentageToLetter (89.999 : Rat) = "A" ∧
    percentageToLetter 50 = "D" ∧ percentageToLetter (39.999 : Rat) = "F" ∧
    percentageToLetter (-5) = "F" ∧ percentageToLetter 150 = "A+" := by
  refine ⟨percentageToLetter_bands, ?_, ?_, ?_, ?_, ?_, ?_, ?_, ?_⟩
  · intro p hp
    exact (percentageToLetter_bands p).2.2.2.2.2.2.2.2.2.2 (by linarith)
  · intro p hp
    exact (percentageToLetter_bands p).1 (by linarith)
  · exact (percentageToLetter_bands 90).1 (by norm_num)
  · exact (percentageToLetter_bands (89.999 : Rat)).2.1 (by norm_num) (by norm_num)
  · exact (percentageToLetter_bands 50).2.2.2.2.2.2.2.2.1 (by norm_num) (by norm_num)
  · exact (percentageToLetter_bands (39.999 : Rat)).2.2.2.2.2.2.2.2.2.2 (by norm_num)
  · exact (percentageToLetter_bands (-5)).2.2.2.2.2.2.2.2.2.2 (by norm_num)
  · exact (percentageToLetter_bands 150).1 (by norm_num)

/-- Witness for C3: the negative-percentage part applied at -5. -/
theorem percentageToLetter_ladder_witness : percentageToLetter (-5) = "F" :=
  percentageToLetter_ladder.2.1 (-5) (by norm_num)

/-- C4: `computeAverageCGPA` on the empty collection returns the sentinel
string "N/A", not a numeric string and not zero. -/
theorem computeAverageCGPA_empty : computeAverageCGPA [] = "N/A" := rfl

/-- C5: the letter table is exactly
`{A+:10, A:9, A-:8, B+:7, B:6, C+:5, C:4, D+:3, D:2, E:1, F:0, ABS:0, EIN:0}`,
every string outside the key set maps to no entry, and the `?? 0`
defaulting used by `computeEntryNumeric` therefore turns any unknown letter
(such as "Z") into 0 rather than an error. -/
theorem letterToNumeric_table :
    (letterToNumeric "A+" = some 10 ∧ letterToNumeric "A" = some 9 ∧
     letterToNumeric "A-" = some 8 ∧ letterToNumeric "B+" = some 7 ∧
     letterToNumeric "B" = some 6 ∧ letterToNumeric "C+" = some 5 ∧
     letterToNumeric "C" = some 4 ∧ letterToNumeric "D+" = some 3 ∧
     letterToNumeric "D" = some 2 ∧ letterToNumeric "E" = some 1 ∧
     letterToNumeric "F" = some 0 ∧ letterToNumeric "ABS" = some 0 ∧
     letterToNumeric "EIN" = some 0) ∧
    (∀ s : String, s ∉ letterKeys → letterToNumeric s = none) ∧
    (∀ s : String, s ∉ letterKeys → (letterToNumeric s).getD 0 = 0) ∧
    (letterToNumeric "Z").getD 0 = 0 := by
  refine ⟨⟨rfl, rfl, rfl, rfl, rfl, rfl, rfl, rfl, rfl, rfl, rfl, rfl, rfl⟩,
    letterToNumeric_eq_none, ?_, rfl⟩
  intro s hs
  rw [letterToNumeric_eq_none s hs]
  rfl

/-- Witness for C5: the unknown-key part applied to the string "Z". -/
theorem letterToNumeric_table_witness : letterToNumeric "Z" = none :=
  letterToNumeric_table.2.1 "Z" (by decide)

/-- C6: the composition of `percentageToLetter` with the letter table (with
the call sites' `?? 0` defaulting) is monotone in the percentage. -/
theorem letter_numeric_monotone (p1 p2 : Rat) (h : p1 ≤ p2) :
    (letterToNumeric (percentageToLetter p1)).getD 0 ≤
      (letterToNumeric (percentageToLetter p2)).getD 0 := by
  have hv := score_bands p2
  have hl := score_le p1
  rcases le_or_lt 90 p2 with h1 | h1
  · rw [hv.1 h1]; exact hl.1
  rcases le_or_lt 85 p2 with h2 | h2
  · rw [hv.2.1 h2 h1]; exact hl.2.1 (by linarith)
  rcases le_or_lt 80 p2 with h3 | h3
  · rw [hv.2.2.1 h3 h2]; exact hl.2.2.1 (by linarith)
  rcases le_or_lt 75 p2 with h4 | h4
  · rw [hv.2.2.2.1 h4 h3]; exact hl.2.2.2.1 (by linarith)
  rcases le_or_lt 70 p2 with h5 | h5
  · rw [hv.2.2.2.2.1 h5 h4]; exact hl.2.2.2.2.1 (by linarith)
  rcases le_or_lt 65 p2 with h6 | h6
  · rw [hv.2.2.2.2.2.1 h6 h5]; exact hl.2.2.2.2.2.1 (by linarith)
  rcases le_or_lt 60 p2 with h7 | h7
  · rw [hv.2.2.2.2.2.2.1 h7 h6]; exact hl.2.2.2.2.2.2.1 (by linarith)
  rcases le_or_lt 55 p2 with h8 | h8
  · rw [hv.2.2.2.2.2.2.2.1 h8 h7]; exact hl.2.2.2.2.2.2.2.1 (by linarith)
  rcases le_or_lt 50 p2 with h9 | h9
  · rw [hv.2.2.2.2.2.2.2.2.1 h9 h8]; exact hl.2.2.2.2.2.2.2.2.1 (by linarith)
  rcases le_or_lt 40 p2 with h10 | h10
  · rw [hv.2.2.2.2.2.2.2.2.2.1 h10 h9]; exact hl.2.2.2.2.2.2.2.2.2.1 (by linarith)
  rw [hv.2.2.2.2.2.2.2.2.2.2 h10]
  exact hl.2.2.2.2.2.2.2.2.2.2 (by linarith)

/-- Witness for C6: monotonicity applied at the pair 0 ≤ 50. -/
theorem letter_numeric_monotone_witness :
    (letterToNumeric (percentageToLetter 0)).getD 0 ≤
      (letterToNumeric (percentageToLetter 50)).getD 0 :=
  letter_numeric_monotone 0 50 (by norm_num)

/-- C7: the `App`-local copies of `computeEntryNumeric` and
`computeAverageCGPA` (src/app.tsx lines 165-191) are extensionally equal to
the module-level copies used by the chart sub-view (lines 778-804). -/
theorem duplicated_aggregation_equal :
    (∀ entry : CourseEntry, App.computeEntryNumeric entry = computeEntryNumeric entry) ∧
    (∀ entries : List CourseEntry, App.computeAverageCGPA entries = computeAverageCGPA entries) :=
  ⟨fun _ => rfl, fun _ => rfl⟩

/-- C9: on every well-typed course entry, `computeEntryNumeric` returns one
of the integers 0 through 10 — the range of the letter table. -/
theorem computeEntryNumeric_range (entry : CourseEntry) :
    computeEntryNumeric entry ∈ ([0, 1, 2, 3, 4, 5, 6, 7, 8, 9, 10] : List Rat) := by
  by_cases h : entry.entryType = EntryType.final
  · unfold computeEntryNumeric
    rw [if_pos h]
    exact letterToNumeric_getD_mem _
  · unfold computeEntryNumeric
    rw [if_neg h]
    exact letterToNumeric_getD_mem _

/-- C10: `percentageToLetter` always returns a key of the letter table, so
the `?? 0` fallback applied to the table lookup of the computed letter in
the scale branch of `computeEntryNumeric` is unreachable: for every scale
entry the lookup of the computed letter is a `some`. -/
theorem scale_fallback_unreachable :
    (∀ p : Rat, (letterToNumeric (percentageToLetter p)).isSome = true) ∧
    (∀ entry : CourseEntry, entry.entryType ≠ EntryType.final →
      computeEntryNumeric entry =
        (letterToNumeric (percentageToLetter (scaleAvg entry))).getD 0 ∧
      letterToNumeric (percentageToLetter (scaleAvg entry)) ≠ none) := by
  have hp : ∀ p : Rat, (letterToNumeric (percentageToLetter p)).isSome = true :=
    fun p => letterToNumeric_isSome_of_mem _ (percentageToLetter_mem_keys p)
  refine ⟨hp, fun entry h => ⟨?_, ?_⟩⟩
  · unfold computeEntryNumeric scaleAvg
    rw [if_neg h]
  · exact Option.isSome_iff_ne_none.mp (hp (scaleAvg entry))

/-- Witness for C10: the scale-branch part applied to the concrete scale
entry of the spec's example. -/
theorem scale_fallback_unreachable_witness :
    letterToNumeric (percentageToLetter (scaleAvg exScaleEntry)) ≠ none :=
  (scale_fallback_unreachable.2 exScaleEntry (by decide)).2

theorem computeAverageCGPA_formula (entries : List CourseEntry) (h : entries ≠ []) :
    computeAverageCGPA entries =
      formatFixed2 ((entries.map (fun e => computeEntryNumeric e * creditsOf e)).sum /
        (entries.map creditsOf).sum) := by
  unfold computeAverageCGPA
  rw [if_neg (fun hc => h (List.length_eq_zero.mp hc))]
  simp only [foldl_pair_sum, zero_add]

/-- C2: for every non-empty collection, `computeAverageCGPA` is the
credit-weighted mean `Σ computeEntryNumeric(e) × credits(e) / Σ credits(e)`
formatted with exactly two fractional digits, where `credits(e)` falls
back to 3 when the credits field is absent or falsy (including 0); two
entries with credits 3 and numeric values 9 and 6 yield "7.50". -/
theorem computeAverageCGPA_spec :
    (∀ entries : List CourseEntry, entries ≠ [] →
      computeAverageCGPA entries =
        formatFixed2 ((entries.map (fun e => computeEntryNumeric e * creditsOf e)).sum /
          (entries.map creditsOf).sum)) ∧
    (∀ entry : CourseEntry, entry.credits = none → creditsOf entry = 3) ∧
    (∀ entry : CourseEntry, entry.credits = some 0 → creditsOf entry = 3) ∧
    computeEntryNumeric exFinalA = 9 ∧ computeEntryNumeric exFinalB = 6 ∧
    computeAverageCGPA [exFinalA, exFinalB] = "7.50" := by
  have h9 : computeEntryNumeric exFinalA = 9 := rfl
  have h6 : computeEntryNumeric exFinalB = 6 := rfl
  have hca : creditsOf exFinalA = 3 := rfl
  have hcb : creditsOf exFinalB = 3 := rfl
  refine ⟨computeAverageCGPA_formula, ?_, ?_, h9, h6, ?_⟩
  · intro entry h
    simp [creditsOf, h]
  · intro entry h
    simp [creditsOf, h]
  · rw [computeAverageCGPA_formula [exFinalA, exFinalB] (by simp)]
    simp only [List.map_cons, List.map_nil, List.sum_cons, List.sum_nil, h9, h6, hca, hcb]
    have harg : ((9 : Rat) * 3 + (6 * 3 + 0)) / (3 + (3 + 0)) = 15 / 2 := by norm_num
    rw [harg, formatFixed2_half15]

/-- Witness for C2: the credit-weighted-mean part applied to the concrete
two-entry collection. -/
theorem computeAverageCGPA_spec_witness :
    computeAverageCGPA [exFinalA, exFinalB] =
      formatFixed2
        (([exFinalA, exFinalB].map (fun e => computeEntryNumeric e * creditsOf e)).sum /
          ([exFinalA, exFinalB].map creditsOf).sum) :=
  computeAverageCGPA_spec.1 [exFinalA, exFinalB] (List.cons_ne_nil _ _)

theorem semesterGroups_append (l : List CourseEntry) (e : CourseEntry) :
    semesterGroups (l ++ [e]) = insertGrouped (semesterGroups l) e := by
  simp [semesterGroups, List.foldl_append]

theorem firstEncounterKeys_append (l : List CourseEntry) (e : CourseEntry) :
    firstEncounterKeys (l ++ [e]) =
      if groupKey e ∈ firstEncounterKeys l then firstEncounterKeys l
      else firstEncounterKeys l ++ [groupKey e] := by
  simp [firstEncounterKeys, List.foldl_append]

theorem entriesWithKey_append (l : List CourseEntry) (e : CourseEntry) (k : String) :
    entriesWithKey (l ++ [e]) k =
      entriesWithKey l k ++ (if groupKey e = k then [e] else []) := by
  simp only [entriesWithKey, List.filter_append, List.filter_cons, List.filter_nil]
  split_ifs with h h2 h3 <;> simp_all

theorem mem_firstEncounterKeys (l : List CourseEntry) (k : String) :
    k ∈ firstEncounterKeys l ↔ k ∈ l.map groupKey := by
  induction l using List.reverseRecOn with
  | nil => simp [firstEncounterKeys]
  | append_singleton xs x ih =>
    rw [firstEncounterKeys_append]
    by_cases hmem : groupKey x ∈ firstEncounterKeys xs
    · rw [if_pos hmem]
      simp only [List.map_append, List.map_cons, List.map_nil, List.mem_append,
        List.mem_singleton]
      constructor
      · intro h
        exact Or.inl (ih.mp h)
      · rintro (h | rfl)
        · exact ih.mpr h
        · exact hmem
    · rw [if_neg hmem]
      simp only [List.map_append, List.map_cons, List.map_nil, List.mem_append,
        List.mem_singleton, ih]

theorem entriesWithKey_eq_nil (l : List CourseEntry) (k : String)
    (h : k ∉ firstEncounterKeys l) : entriesWithKey l k = [] := by
  rw [mem_firstEncounterKeys] at h
  rw [entriesWithKey, List.filter_eq_nil_iff]
  intro e he
  simp only [decide_eq_true_eq]
  intro hk
  exact h (hk ▸ List.mem_map_of_mem groupKey he)

theorem groups_any_key (xs : List CourseEntry) (s : String) :
    (((firstEncounterKeys xs).map (fun k => (k, entriesWithKey xs k))).any
      (fun p => p.1 = s)) = true ↔ s ∈ firstEncounterKeys xs := by
  simp only [List.any_eq_true, List.mem_map, decide_eq_true_eq]
  constructor
  · rintro ⟨x, ⟨a, ha, rfl⟩, hps⟩
    exact (show a = s from hps) ▸ ha
  · intro hs
    exact ⟨(s, entriesWithKey xs s), ⟨s, hs, rfl⟩, rfl⟩

theorem semesterGroups_eq (l : List CourseEntry) :
    semesterGroups l = (firstEncounterKeys l).map (fun k => (k, entriesWithKey l k)) := by
  induction l using List.reverseRecOn with
  | nil => simp [semesterGroups, firstEncounterKeys]
  | append_singleton xs x ih =>
    rw [semesterGroups_append, ih, firstEncounterKeys_append]
    unfold insertGrouped
    by_cases hmem : groupKey x ∈ firstEncounterKeys xs
    · rw [if_pos ((groups_any_key xs (groupKey x)).mpr hmem), if_pos hmem, List.map_map]
      apply List.map_congr_left
      intro k hk
      simp only [Function.comp_apply]
      by_cases hkx : k = groupKey x
      · rw [if_pos hkx, entriesWithKey_append, if_pos hkx.symm]
      · rw [if_neg hkx, entriesWithKey_append, if_neg (fun hc => hkx hc.symm),
          List.append_nil]
    · rw [if_neg (fun hc => hmem ((groups_any_key xs (groupKey x)).mp hc)), if_neg hmem,
        List.map_append, List.map_cons, List.map_nil]
      congr 1
      · apply List.map_congr_left
        intro k hk
        rw [entriesWithKey_append, if_neg (fun hc => hmem (by rw [hc]; exact hk)),
          List.append_nil]
      · rw [entriesWithKey_append, if_pos rfl, entriesWithKey_eq_nil xs _ hmem,
          List.nil_append]

/-- C8: the chart input consists of the "<year> <semester>" group keys in
first-encounter order followed by a final "Overall" label; the value for
each group is `parseFloat` of that group's CGPA computed over exactly the
entries carrying that key in collection order, the final value is the
overall CGPA, and the "N/A" sentinel (empty collection) is mapped to 0 for
charting only. -/
theorem chart_data_spec :
    (∀ progressData : List CourseEntry,
      chartLabels progressData = firstEncounterKeys progressData ++ ["Overall"] ∧
      chartValues progressData =
        (firstEncounterKeys progressData).map
          (fun k => parseFloatQ (computeAverageCGPA (entriesWithKey progressData k))) ++
        [parseFloatQ
          (if computeAverageCGPA progressData = "N/A" then "0"
           else computeAverageCGPA progressData)]) ∧
    chartLabels [] = ["Overall"] ∧ chartValues [] = [some 0] := by
  have h0 : parseFloatQ "0" = some 0 := by
    have h : parseDecimal "0" = some (false, 0, 0, 0) := by decide
    rw [parseFloatQ, h]
    norm_num
  refine ⟨fun progressData => ⟨?_, ?_⟩, rfl, ?_⟩
  · unfold chartLabels
    rw [semesterGroups_eq, List.map_map]
    show List.map (fun k => k) (firstEncounterKeys progressData) ++ ["Overall"] =
      firstEncounterKeys progressData ++ ["Overall"]
    rw [List.map_id']
  · unfold chartValues
    rw [semesterGroups_eq, List.map_map]
    rfl
  · unfold chartValues
    simp only [semesterGroups, List.foldl_nil, List.map_nil, List.nil_append]
    rw [if_pos (show computeAverageCGPA [] = "N/A" from rfl), h0]
